import Mathlib

/-!
Shallow embedding of the django-geckoboard core
(`src/django_geckoboard/decorators.py`): the per-widget result
converters (`_convert_view_result` of each widget decorator), the
generic XML tree builder (`_build_xml` and friends), and the output
format selection of `_render`.

Python values flowing through the converters are modelled by the
dynamic type `PyVal` (None, bool, int, float, str, list, tuple, dict).
Python `float` is modelled as an exact rational; the only place the
code manipulates floats is the bullet widget's `scaler` helper
`float('%.2f' % (value*1.0/scale))`, modelled as exact division
followed by rounding to two decimal places.  Python 2 `/` on two ints
is floor division, modelled by `Int.fdiv`.  In-place mutation of the
caller's data (the funnel's `items.sort(reverse=True)` and the bullet
decorator's writes to `result['comparitive']` and
`result['sublabel']`) is modelled by returning the final state of the
input alongside the converted output.
-/

/-- Dynamic Python value, as used by the converters and serializers. -/
inductive PyVal where
  | none
  | bool (b : Bool)
  | int (n : Int)
  | float (q : ℚ)
  | str (s : String)
  | list (xs : List PyVal)
  | tuple (xs : List PyVal)
  | dict (kvs : List (String × PyVal))

mutual

/-- Boolean structural equality on `PyVal` (Lean-level equality of the
embedding, used to derive `DecidableEq`; this is not Python `==`). -/
def PyVal.beq : PyVal → PyVal → Bool
  | .none, .none => true
  | .bool a, .bool b => a == b
  | .int a, .int b => a == b
  | .float a, .float b => a == b
  | .str a, .str b => a == b
  | .list a, .list b => PyVal.beqList a b
  | .tuple a, .tuple b => PyVal.beqList a b
  | .dict a, .dict b => PyVal.beqDict a b
  | _, _ => false

/-- Pointwise `PyVal.beq` on lists. -/
def PyVal.beqList : List PyVal → List PyVal → Bool
  | [], [] => true
  | a :: as, b :: bs => PyVal.beq a b && PyVal.beqList as bs
  | _, _ => false

/-- Pointwise `PyVal.beq` on string-keyed association lists. -/
def PyVal.beqDict : List (String × PyVal) → List (String × PyVal) → Bool
  | [], [] => true
  | (k, a) :: as, (k', b) :: bs => k == k' && PyVal.beq a b && PyVal.beqDict as bs
  | _, _ => false

end

mutual

theorem PyVal.beq_iff : ∀ a b : PyVal, PyVal.beq a b = true ↔ a = b
  | .none, b => by cases b <;> simp [PyVal.beq]
  | .bool a, b => by cases b <;> simp [PyVal.beq]
  | .int a, b => by cases b <;> simp [PyVal.beq]
  | .float a, b => by cases b <;> simp [PyVal.beq]
  | .str a, b => by cases b <;> simp [PyVal.beq]
  | .list as, b => by
      cases b <;> simp [PyVal.beq]
      exact PyVal.beqList_iff as _
  | .tuple as, b => by
      cases b <;> simp [PyVal.beq]
      exact PyVal.beqList_iff as _
  | .dict as, b => by
      cases b <;> simp [PyVal.beq]
      exact PyVal.beqDict_iff as _

theorem PyVal.beqList_iff : ∀ as bs : List PyVal, PyVal.beqList as bs = true ↔ as = bs
  | [], bs => by cases bs <;> simp [PyVal.beqList]
  | a :: as, bs => by
      cases bs with
      | nil => simp [PyVal.beqList]
      | cons b bs =>
          simp only [PyVal.beqList, Bool.and_eq_true, List.cons.injEq]
          rw [PyVal.beq_iff a b, PyVal.beqList_iff as bs]

theorem PyVal.beqDict_iff :
    ∀ as bs : List (String × PyVal), PyVal.beqDict as bs = true ↔ as = bs
  | [], bs => by cases bs <;> simp [PyVal.beqDict]
  | (k, a) :: as, bs => by
      cases bs with
      | nil => simp [PyVal.beqDict]
      | cons b bs =>
          obtain ⟨k', b⟩ := b
          simp only [PyVal.beqDict, Bool.and_eq_true, List.cons.injEq, Prod.mk.injEq,
            beq_iff_eq]
          rw [PyVal.beq_iff a b, PyVal.beqDict_iff as bs]

end

instance : DecidableEq PyVal := fun a b =>
  decidable_of_iff (PyVal.beq a b = true) (PyVal.beq_iff a b)

/-- Python truthiness, as used by `if axis_points:`, `if result.get('sort'):`,
`if auto_scale and axis_points:` and `if sublabel:`. -/
def pyTruthy : PyVal → Bool
  | .none => false
  | .bool b => b
  | .int n => n != 0
  | .float q => q != 0
  | .str s => s != ""
  | .list xs => !xs.isEmpty
  | .tuple xs => !xs.isEmpty
  | .dict kvs => !kvs.isEmpty

/-- Whether a value is a Python `tuple` or `list`
(the `isinstance(x, (tuple, list))` test used throughout the source). -/
def isSeq : PyVal → Bool
  | .list _ => true
  | .tuple _ => true
  | _ => false

/-- The "singleton widening" idiom `if not isinstance(x, (tuple, list)): x = [x]`
followed by reading the elements: a tuple or list yields its elements,
anything else becomes a one-element list. -/
def seqItems : PyVal → List PyVal
  | .list xs => xs
  | .tuple xs => xs
  | v => [v]

/-- Python subscripting `x[i]` on a tuple or list; `Option.none` models the
`TypeError`/`IndexError` that any other use raises. -/
def pyIndex (v : PyVal) (i : Nat) : Option PyVal :=
  match v with
  | .list xs => xs.get? i
  | .tuple xs => xs.get? i
  | _ => Option.none

/-- Python numbers: an `int` or a `float` (the latter modelled exactly as a
rational). -/
inductive PyNum where
  | i (n : Int)
  | f (q : ℚ)
deriving DecidableEq

/-- Numeric value of a `PyNum` for comparisons. -/
def PyNum.toRat : PyNum → ℚ
  | .i n => (n : ℚ)
  | .f q => q

/-- The `PyVal` a `PyNum` stands for. -/
def PyNum.toVal : PyNum → PyVal
  | .i n => .int n
  | .f q => .float q

/-- Python subtraction on numbers: int − int stays int, otherwise float. -/
def PyNum.sub : PyNum → PyNum → PyNum
  | .i a, .i b => .i (a - b)
  | a, b => .f (a.toRat - b.toRat)

/-- Python addition on numbers: int + int stays int, otherwise float. -/
def PyNum.add : PyNum → PyNum → PyNum
  | .i a, .i b => .i (a + b)
  | a, b => .f (a.toRat + b.toRat)

/-- Python 2 division `a / b`: floor division on two ints, true division
otherwise.  (The source only ever divides by the nonzero constants `3` and
the scale factors, so division by zero never arises.) -/
def PyNum.pydiv : PyNum → PyNum → PyNum
  | .i a, .i b => .i (a.fdiv b)
  | a, b => .f (a.toRat / b.toRat)

/-- View a `PyVal` as a number (Python bools are ints: `True == 1`). -/
def asNum : PyVal → Option PyNum
  | .bool b => some (.i (if b then 1 else 0))
  | .int n => some (.i n)
  | .float q => some (.f q)
  | _ => Option.none

/-- View a tuple or list of numbers as a `List PyNum`. -/
def asNumList (v : PyVal) : Option (List PyNum) :=
  match v with
  | .list xs => xs.mapM asNum
  | .tuple xs => xs.mapM asNum
  | _ => Option.none

/-- Python `max` over a nonempty list of numbers: scans left to right and
keeps the first maximal element. -/
def pyMaxNum : List PyNum → Option PyNum
  | [] => Option.none
  | x :: xs => some (xs.foldl (fun a b => if a.toRat < b.toRat then b else a) x)

/-- Python `min` over a nonempty list of numbers: scans left to right and
keeps the first minimal element. -/
def pyMinNum : List PyNum → Option PyNum
  | [] => Option.none
  | x :: xs => some (xs.foldl (fun a b => if b.toRat < a.toRat then b else a) x)

/-- Python `str(x)` for the values the serializer meets.  Container and
float renderings are abstracted (no claim depends on their exact text);
`None`, bools, ints and strings follow Python exactly. -/
def pyStr : PyVal → String
  | .none => "None"
  | .bool b => if b then "True" else "False"
  | .int n => toString n
  | .float q => toString q
  | .str s => s
  | .list _ => "[...]"
  | .tuple _ => "(...)"
  | .dict _ => "..."

/-- XML node: an element with a tag and child nodes, or a text node
(attributes never occur in this code). -/
inductive Xml where
  | elem (tag : String) (children : List Xml)
  | text (s : String)

/-- Escaping applied by minidom to character data: `&`, `<`, `"`, `>`. -/
def escapeXmlChar (c : Char) : List Char :=
  if c = '&' then "&amp;".data
  else if c = '<' then "&lt;".data
  else if c = '"' then "&quot;".data
  else if c = '>' then "&gt;".data
  else [c]

/-- Escape a whole text-node string. -/
def escapeXml (s : String) : String :=
  ⟨s.data.flatMap escapeXmlChar⟩

mutual

/-- Serialization of one XML node, as `xml.dom.minidom` writes it with no
indentation: `<tag/>` for an empty element, `<tag>…</tag>` otherwise,
escaped character data for text nodes. -/
def Xml.render : Xml → String
  | .text s => escapeXml s
  | .elem tag [] => "<" ++ tag ++ "/>"
  | .elem tag (c :: cs) => "<" ++ tag ++ ">" ++ Xml.renderList (c :: cs) ++ "</" ++ tag ++ ">"

/-- Serialization of a list of sibling nodes. -/
def Xml.renderList : List Xml → String
  | [] => ""
  | c :: cs => Xml.render c ++ Xml.renderList cs

end

mutual

/-- `_build_xml(doc, parent, data)`: the child nodes appended to `parent`
for `data`.  Tuples and lists contribute their elements in place, dicts
contribute one element per key (list-valued keys repeat the tag), anything
else contributes a text node `str(data)`. -/
def buildXml : PyVal → List Xml
  | .list xs => buildListXml xs
  | .tuple xs => buildListXml xs
  | .dict kvs => buildDictXml kvs
  | v => [.text (pyStr v)]

/-- `_build_list_xml`: each item's nodes, concatenated, with no wrapper. -/
def buildListXml : List PyVal → List Xml
  | [] => []
  | x :: xs => buildXml x ++ buildListXml xs

/-- `_build_dict_xml`: for each `(tag, item)` pair, a list- or tuple-valued
`item` produces one `tag` element per sequence member, anything else one
`tag` element wrapping the item's nodes. -/
def buildDictXml : List (String × PyVal) → List Xml
  | [] => []
  | (tag, item) :: rest =>
      (match item with
       | .list xs => buildTaggedXml tag xs
       | .tuple xs => buildTaggedXml tag xs
       | v => [Xml.elem tag (buildXml v)]) ++ buildDictXml rest

/-- The repeated sibling elements produced for a sequence stored under a
dict key. -/
def buildTaggedXml (tag : String) : List PyVal → List Xml
  | [] => []
  | x :: xs => Xml.elem tag (buildXml x) :: buildTaggedXml tag xs

end

/-- The XML declaration minidom's `Document.toxml()` emits when no encoding
is given. -/
def xmlDeclaration : String := "<?xml version=\"1.0\" ?>"

/-- `_render_xml(data)`: the full document text — declaration, then a single
synthetic root element named `root` holding the data's nodes. -/
def renderXmlDoc (data : PyVal) : String :=
  xmlDeclaration ++ Xml.render (.elem "root" (buildXml data))

mutual

/-- Node emission as the specification words it: a `Mapping` emits one child
element per key in insertion order, except that a `Sequence`-valued key
emits the key's tag once per sequence element as sibling elements, each
wrapping that one element's serialization; a `Scalar` emits its string form
as a text node; a `Sequence` not under a mapping key emits its elements in
place with no wrapping element of its own. -/
def specXmlNodes : PyVal → List Xml
  | .dict kvs => specXmlMapping kvs
  | .list xs => specXmlSeq xs
  | .tuple xs => specXmlSeq xs
  | scalar => [.text (pyStr scalar)]

/-- Spec-worded emission for a mapping's keys, in insertion order: a
`Sequence`-valued key repeats its tag per element, any other value gets
one element carrying its serialization. -/
def specXmlMapping : List (String × PyVal) → List Xml
  | [] => []
  | (key, value) :: rest =>
      (match value with
       | .list elems => specXmlRepeat key elems
       | .tuple elems => specXmlRepeat key elems
       | other => [Xml.elem key (specXmlNodes other)]) ++ specXmlMapping rest

/-- Spec-worded repeated sibling tag: the key's tag once per sequence
element. -/
def specXmlRepeat (key : String) : List PyVal → List Xml
  | [] => []
  | e :: es => Xml.elem key (specXmlNodes e) :: specXmlRepeat key es

/-- Spec-worded emission for a sequence not under a mapping key. -/
def specXmlSeq : List PyVal → List Xml
  | [] => []
  | e :: es => specXmlNodes e ++ specXmlSeq es

end

mutual

theorem buildXml_eq_spec : ∀ v : PyVal, buildXml v = specXmlNodes v
  | .none => rfl
  | .bool _ => rfl
  | .int _ => rfl
  | .float _ => rfl
  | .str _ => rfl
  | .list xs => by rw [buildXml, specXmlNodes, buildListXml_eq_spec xs]
  | .tuple xs => by rw [buildXml, specXmlNodes, buildListXml_eq_spec xs]
  | .dict kvs => by rw [buildXml, specXmlNodes, buildDictXml_eq_spec kvs]

theorem buildListXml_eq_spec : ∀ xs : List PyVal, buildListXml xs = specXmlSeq xs
  | [] => rfl
  | x :: xs => by
      rw [buildListXml, specXmlSeq, buildXml_eq_spec x, buildListXml_eq_spec xs]

theorem buildDictXml_eq_spec :
    ∀ kvs : List (String × PyVal), buildDictXml kvs = specXmlMapping kvs
  | [] => rfl
  | (tag, item) :: rest => by
      have hrest := buildDictXml_eq_spec rest
      cases item with
      | list xs =>
          simp only [buildDictXml, specXmlMapping]
          rw [buildTaggedXml_eq_spec tag xs, hrest]
      | tuple xs =>
          simp only [buildDictXml, specXmlMapping]
          rw [buildTaggedXml_eq_spec tag xs, hrest]
      | none =>
          simp only [buildDictXml, specXmlMapping]
          rw [buildXml_eq_spec PyVal.none, hrest]
      | bool b =>
          simp only [buildDictXml, specXmlMapping]
          rw [buildXml_eq_spec (PyVal.bool b), hrest]
      | int n =>
          simp only [buildDictXml, specXmlMapping]
          rw [buildXml_eq_spec (PyVal.int n), hrest]
      | float q =>
          simp only [buildDictXml, specXmlMapping]
          rw [buildXml_eq_spec (PyVal.float q), hrest]
      | str s =>
          simp only [buildDictXml, specXmlMapping]
          rw [buildXml_eq_spec (PyVal.str s), hrest]
      | dict kvs =>
          simp only [buildDictXml, specXmlMapping]
          rw [buildXml_eq_spec (PyVal.dict kvs), hrest]

theorem buildTaggedXml_eq_spec :
    ∀ (tag : String) (xs : List PyVal), buildTaggedXml tag xs = specXmlRepeat tag xs
  | _, [] => rfl
  | tag, x :: xs => by
      rw [buildTaggedXml, specXmlRepeat, buildXml_eq_spec x, buildTaggedXml_eq_spec tag xs]

end

/-- Minimal JSON escaping (`simplejson.dumps` for the strings this code
produces; exotic escapes are abstracted). -/
def escapeJsonChar (c : Char) : List Char :=
  if c = '"' then ['\\', '"']
  else if c = '\\' then ['\\', '\\']
  else if c = '\n' then ['\\', 'n']
  else [c]

/-- Join serialized fragments with the `", "` separator `simplejson` uses. -/
def joinComma : List String → String
  | [] => ""
  | [s] => s
  | s :: rest => s ++ ", " ++ joinComma rest

mutual

/-- `simplejson.dumps(data)`: JSON body text, preserving mapping key order.
Only its existence matters to the claims (none inspects JSON bodies), but it
is kept structurally faithful. -/
def renderJson : PyVal → String
  | .none => "null"
  | .bool b => if b then "true" else "false"
  | .int n => toString n
  | .float q => toString q
  | .str s => "\"" ++ ⟨s.data.flatMap escapeJsonChar⟩ ++ "\""
  | .list xs => "[" ++ joinComma (renderJsonList xs) ++ "]"
  | .tuple xs => "[" ++ joinComma (renderJsonList xs) ++ "]"
  | .dict kvs => "\x7b" ++ joinComma (renderJsonDict kvs) ++ "\x7d"

/-- Serialized fragments of a JSON array's elements. -/
def renderJsonList : List PyVal → List String
  | [] => []
  | x :: xs => renderJson x :: renderJsonList xs

/-- Serialized fragments of a JSON object's entries. -/
def renderJsonDict : List (String × PyVal) → List String
  | [] => []
  | (k, v) :: rest =>
      ("\"" ++ ⟨k.data.flatMap escapeJsonChar⟩ ++ "\": " ++ renderJson v) :: renderJsonDict rest

end

/-- The two output formats `_render` can produce. -/
inductive RenderFormat where
  | xml
  | json
deriving DecidableEq

/-- Resolution of the `format` request parameter in `_render`: the `POST`
value if present and non-empty, else the `GET` value if present, else the
empty string. -/
def resolveFormatParam (post get : Option String) : String :=
  let fmt := post.getD ""
  if fmt = "" then get.getD "" else fmt

/-- The format `_render` selects for a given `format` parameter value:
`"2"` selects JSON, everything else selects XML. -/
def chooseFormat (format : String) : RenderFormat :=
  if format = "2" then .json else .xml

/-- `_render(request, data)`: resolve the format parameter, then serialize
with the selected renderer. -/
def renderBody (post get : Option String) (data : PyVal) : String :=
  match chooseFormat (resolveFormatParam post get) with
  | .json => renderJson data
  | .xml => renderXmlDoc data

/-- One converted RAG entry (`SortedDict` with `value` and optional `text`,
in that insertion order). -/
structure RagItem where
  value : PyVal
  text : Option PyVal
deriving DecidableEq

/-- The `value` field of a RAG item: `''` for `None`, the value itself
otherwise. -/
def ragValueOf (v : PyVal) : PyVal :=
  match v with
  | .none => .str ""
  | w => w

/-- One element of the RAG input: widened to a list, `elem[0]` is the value
(rendered as `''` when it is `None`), `elem[1]` (when present) the text.
`Option.none` models the `IndexError` on an empty tuple or list. -/
def ragItemOf (elem : PyVal) : Option RagItem :=
  match seqItems elem with
  | [] => Option.none
  | v :: rest => some { value := ragValueOf v, text := rest.head? }

/-- `RAGWidgetDecorator._convert_view_result`: the `item` list built from
the input elements, in input order. -/
def ragConvert (result : List PyVal) : Option (List RagItem) :=
  result.mapM ragItemOf

/-- `GeckOMeterWidgetDecorator._convert_view_result`: builds the ordered
mapping `item`, `max`, `min`, where `max` and `min` are widened and carry
`value` plus `text` exactly when a second component is supplied. -/
def gaugeConvert (value mn mx : PyVal) : Option PyVal := do
  let maxL := seqItems mx
  let maxV ← maxL.head?
  let minL := seqItems mn
  let minV ← minL.head?
  some (.dict
    [("item", value),
     ("max", .dict (("value", maxV) :: ((maxL.get? 1).map (fun t => ("text", t))).toList)),
     ("min", .dict (("value", minV) :: ((minL.get? 1).map (fun t => ("text", t))).toList))])

/-- Descending tuple comparison used by `items.sort(reverse=True)` on
`(value, label)` pairs: first by value, then by label.  `itemGe a b` says
`a` sorts no later than `b` in the descending order. -/
def itemGe (a b : ℤ × String) : Prop :=
  b.1 < a.1 ∨ (a.1 = b.1 ∧ b.2 ≤ a.2)

instance : DecidableRel itemGe := fun a b => by
  unfold itemGe; infer_instance

instance : IsTotal (ℤ × String) itemGe :=
  ⟨fun a b => by
    rcases lt_trichotomy a.1 b.1 with h | h | h
    · exact Or.inr (Or.inl h)
    · rcases le_total a.2 b.2 with h2 | h2
      · exact Or.inr (Or.inr ⟨h.symm, h2⟩)
      · exact Or.inl (Or.inr ⟨h, h2⟩)
    · exact Or.inl (Or.inl h)⟩

instance : IsTrans (ℤ × String) itemGe :=
  ⟨fun a b c hab hbc => by
    rcases hab with h1 | ⟨h1, h1'⟩ <;> rcases hbc with h2 | ⟨h2, h2'⟩
    · exact Or.inl (h2.trans h1)
    · exact Or.inl (lt_of_le_of_lt (le_of_eq h2.symm) h1)
    · exact Or.inl (lt_of_lt_of_le h2 (le_of_eq h1.symm))
    · exact Or.inr ⟨h1.trans h2, h2'.trans h1'⟩⟩

/-- `items.sort(reverse=True)` on a list of `(value, label)` pairs: the
stable descending sort by tuple comparison.  (Python's sort is stable;
since `itemGe` is antisymmetric the sorted permutation is unique, so the
insertion sort used here produces exactly the list Python produces.) -/
def sortDesc (items : List (ℤ × String)) : List (ℤ × String) :=
  List.insertionSort itemGe items

/-- Funnel input mapping: the optional keys of the `result` dict.  `items`
elements are the documented `(value, label)` pairs; `sort` is `some true`
exactly when the key is present with a truthy value. -/
structure FunnelInput where
  items : Option (List (ℤ × String))
  ftype : Option String
  percentage : Option String
  sort : Option Bool
deriving DecidableEq

/-- One converted funnel entry: `dict(zip(("value","label"), item))`. -/
structure FunnelItem where
  value : ℤ
  label : String
deriving DecidableEq

/-- Converted funnel structure: `item`, `type`, `percentage`. -/
structure FunnelOutput where
  item : List FunnelItem
  ftype : String
  percentage : String
deriving DecidableEq

/-- `FunnelWidgetDecorator._convert_view_result`.  `items.sort(reverse=True)`
sorts the caller's list in place, so the second component returns the final
state of the input mapping: when `items` is present and `sort` is truthy
the stored list is the sorted one. -/
def funnelConvert (inp : FunnelInput) : FunnelOutput × FunnelInput :=
  let items := inp.items.getD []
  let items' := if inp.sort.getD false then sortDesc items else items
  ({ item := items'.map (fun p => { value := p.1, label := p.2 }),
     ftype := inp.ftype.getD "standard",
     percentage := inp.percentage.getD "show" },
   { inp with items := inp.items.map (fun _ => items') })

/-- A Python dict with string keys, as the bullet decorator receives it
(modelled as an association list; lookups find the first matching key). -/
abbrev PyDict := List (String × PyVal)

/-- `d.get(k)` without a default: the stored value, if the key is present. -/
def dget (d : PyDict) (k : String) : Option PyVal :=
  (d.find? (fun kv => kv.1 == k)).map (fun kv => kv.2)

/-- `d.has_key(k)`. -/
def hasKey (d : PyDict) (k : String) : Bool :=
  (dget d k).isSome

/-- `d.get(k, dflt)`. -/
def dgetD (d : PyDict) (k : String) (dflt : PyVal) : PyVal :=
  (dget d k).getD dflt

/-- Python dict assignment `d[k] = v`: replaces the stored value in place,
appends when the key is new. -/
def dset : PyDict → String → PyVal → PyDict
  | [], k, v => [(k, v)]
  | (k', v') :: rest, k, v =>
      if k' == k then (k', v) :: rest else (k', v') :: dset rest k v

/-- Whether a value is Python `None` (the `x is None` test). -/
def isPyNone : PyVal → Bool
  | .none => true
  | _ => false

/-- The red/amber/green defaulting step of
`BulletWidgetDecorator._convert_view_result`: if red, amber and green are
not *all* supplied, all three are recomputed from `axis_points` — thirds of
the span between `min` and `max` when `axis_points` is truthy, `(0, 0)`
otherwise.  `Option.none` models the `TypeError` raised when `axis_points`
is truthy but not a sequence of numbers. -/
def bulletRanges (axis_points red amber green : PyVal) :
    Option (PyVal × PyVal × PyVal) :=
  if isPyNone red || isPyNone amber || isPyNone green then
    if pyTruthy axis_points then do
      let nums ← asNumList axis_points
      let maxPoint ← pyMaxNum nums
      let minPoint ← pyMinNum nums
      let third := (maxPoint.sub minPoint).pydiv (.i 3)
      some (.tuple [minPoint.toVal, ((minPoint.add third).sub (.i 1)).toVal],
            .tuple [(minPoint.add third).toVal, ((maxPoint.sub third).sub (.i 1)).toVal],
            .tuple [(maxPoint.sub third).toVal, maxPoint.toVal])
    else
      some (.tuple [.int 0, .int 0], .tuple [.int 0, .int 0], .tuple [.int 0, .int 0])
  else
    some (red, amber, green)

/-- Round a rational to two decimal places (the `'%.2f'` formatting of the
bullet `scaler`, up to the tie-breaking of binary floats, which never
matters in the claims). -/
def roundTo2 (q : ℚ) : ℚ :=
  ((⌊q * 100 + 1 / 2⌋ : ℤ) : ℚ) / 100

/-- The bullet `scaler` helper: `float('%.2f' % (value*1.0/scale))`. -/
def scaler (v : PyNum) (scale : ℤ) : PyVal :=
  .float (roundTo2 (v.toRat / (scale : ℚ)))

/-- The scale chosen by the `for n in (1000000000, 1000000, 1000)` loop:
the first (largest) of the three that `value` reaches, else 1. -/
def scaleOf (value : ℚ) : ℤ :=
  if (1000000000 : ℚ) ≤ value then 1000000000
  else if (1000000 : ℚ) ≤ value then 1000000
  else if (1000 : ℚ) ≤ value then 1000
  else 1

/-- `scale_label_map`. -/
def scaleLabel (scale : ℤ) : String :=
  if scale = 1000000000 then "billions"
  else if scale = 1000000 then "millions"
  else "thousands"

/-- Scale both components of a 2-component range:
`(scaler(r[0], scale), scaler(r[1], scale))`. -/
def scalePair (p : PyVal) (scale : ℤ) : Option PyVal := do
  let a0 ← pyIndex p 0
  let a ← asNum a0
  let b0 ← pyIndex p 1
  let b ← asNum b0
  some (.tuple [scaler a scale, scaler b scale])

/-- The local values of `BulletWidgetDecorator._convert_view_result` after
widening and range defaulting, before and after auto-scaling. -/
structure BulletVals where
  axisPoints : PyVal
  current : PyVal
  projected : Option PyVal
  red : PyVal
  amber : PyVal
  green : PyVal
deriving DecidableEq

/-- The auto-scaling step (the `if auto_scale and axis_points:` block):
when a scale larger than 1 is picked, every numeric field is passed through
`scaler`, `result['comparitive']` is overwritten with its scaled value, and
`result['sublabel']` is suffixed (truthy sublabel) or created capitalized
(falsy sublabel).  Returns the scaled values and the final state of the
input dict. -/
def bulletAutoScale (d : PyDict) (v : BulletVals) : Option (BulletVals × PyDict) :=
  let autoScale := dgetD d "auto_scale" (.bool true)
  if pyTruthy autoScale && pyTruthy v.axisPoints then do
    let nums ← asNumList v.axisPoints
    let value ← pyMaxNum nums
    let scale := scaleOf value.toRat
    if 1 < scale then do
      let axis' := PyVal.list (nums.map (fun n => scaler n scale))
      let current' ← scalePair v.current scale
      let projected' ← match v.projected with
        | Option.none => some Option.none
        | some p => (scalePair p scale).map some
      let red' ← scalePair v.red scale
      let amber' ← scalePair v.amber scale
      let green' ← scalePair v.green scale
      let compV ← dget d "comparitive"
      let comp ← asNum compV
      let d1 := dset d "comparitive" (scaler comp scale)
      let sublabel := dgetD d1 "sublabel" (.str "")
      let d2 := dset d1 "sublabel"
        (if pyTruthy sublabel then
           .str (pyStr sublabel ++ " (" ++ scaleLabel scale ++ ")")
         else
           .str (scaleLabel scale).capitalize)
      some ({ axisPoints := axis', current := current', projected := projected',
              red := red', amber := amber', green := green' }, d2)
    else
      some (v, d)
  else
    some (v, d)

/-- The converted bullet structure (the nested `data` dict of the source,
with `item` flattened into named fields; the source assembles it with
keyword arguments of Python 2's unordered `dict`, so no key order is
specified there). -/
structure BulletOutput where
  orientation : PyVal
  label : PyVal
  sublabel : Option PyVal
  axisPoints : PyVal
  red : PyVal × PyVal
  amber : PyVal × PyVal
  green : PyVal × PyVal
  current : PyVal × PyVal
  projected : Option (PyVal × PyVal)
  comparitive : PyVal
deriving DecidableEq

/-- Read `(p[0], p[1])` off a range value. -/
def pairOf (p : PyVal) : Option (PyVal × PyVal) := do
  let a ← pyIndex p 0
  let b ← pyIndex p 1
  some (a, b)

/-- `BulletWidgetDecorator._convert_view_result` after the required-key
check: singleton widening of `current`/`projected`, range defaulting,
auto-scaling, and assembly.  Returns the output and the final state of the
input dict; `Option.none` models the type and index errors unguarded
malformed input raises. -/
def bulletChecked (d : PyDict) : Option (BulletOutput × PyDict) := do
  let current0 ← dget d "current"
  let current := if isSeq current0 then current0 else .list [.int 0, current0]
  let projected0 := dgetD d "projected" .none
  let projected : Option PyVal :=
    match projected0 with
    | .none => Option.none
    | p => some (if isSeq p then p else .list [.int 0, p])
  let axisPoints ← dget d "axis_points"
  let (red, amber, green) ← bulletRanges axisPoints (dgetD d "red" .none)
      (dgetD d "amber" .none) (dgetD d "green" .none)
  let (vals, d') ← bulletAutoScale d
      { axisPoints := axisPoints, current := current, projected := projected,
        red := red, amber := amber, green := green }
  let label ← dget d "label"
  let redP ← pairOf vals.red
  let amberP ← pairOf vals.amber
  let greenP ← pairOf vals.green
  let currentP ← pairOf vals.current
  let projectedP ← match vals.projected with
    | Option.none => some Option.none
    | some p => (pairOf p).map some
  let comparitive ← dget d' "comparitive"
  some ({ orientation := dgetD d "orientation" (.str "horizontal"),
          label := label,
          sublabel := dget d' "sublabel",
          axisPoints := vals.axisPoints,
          red := redP, amber := amberP, green := greenP,
          current := currentP, projected := projectedP,
          comparitive := comparitive }, d')

/-- The error raised by the bullet conversion: the `RuntimeError,
"Key %s is required"` of the explicit required-key check, or any of the
unguarded `TypeError`/`IndexError`/`KeyError` failures further down. -/
inductive BulletError where
  | required (key : String)
  | typeError
deriving DecidableEq

/-- The keys checked by the `for key in ('label', 'axis_points', 'current',
'comparitive')` loop, in source order. -/
def requiredBulletKeys : List String :=
  ["label", "axis_points", "current", "comparitive"]

/-- The first required key missing from the input, if any — the one the
source's loop raises about. -/
def firstMissingKey (d : PyDict) : Option String :=
  requiredBulletKeys.find? (fun k => !(hasKey d k))

/-- `BulletWidgetDecorator._convert_view_result`, end to end. -/
def bulletConvert (d : PyDict) : Except BulletError (BulletOutput × PyDict) :=
  match firstMissingKey d with
  | some k => .error (.required k)
  | Option.none =>
      match bulletChecked d with
      | some r => .ok r
      | Option.none => .error .typeError

/-- The converted output of a successful bullet conversion. -/
def bulletOutputOf (d : PyDict) : Option BulletOutput :=
  (bulletConvert d).toOption.map (fun r => r.1)

/-- The final state of the input dict after a successful bullet
conversion. -/
def bulletFinalDict (d : PyDict) : Option PyDict :=
  (bulletConvert d).toOption.map (fun r => r.2)

/-- An optional dict entry. -/
def optEntry (k : String) : Option PyVal → PyDict
  | Option.none => []
  | some v => [(k, v)]

/-- A 2-element integer list value, for supplied red/amber/green ranges. -/
def intPair (p : ℤ × ℤ) : PyVal :=
  .list [.int p.1, .int p.2]

/-- A bullet input mapping of the documented shape: integer axis points, a
singleton integer `current` and `comparitive`, and the optional keys the
algorithm inspects. -/
def mkBulletDict (label : String) (ns : List ℤ) (cur comp : ℤ)
    (sub : Option String) (auto : Option Bool) (proj : Option ℤ)
    (red amber green : Option (ℤ × ℤ)) : PyDict :=
  [("label", .str label), ("axis_points", .list (ns.map PyVal.int)),
   ("current", .int cur), ("comparitive", .int comp)]
  ++ optEntry "sublabel" (sub.map PyVal.str)
  ++ optEntry "auto_scale" (auto.map PyVal.bool)
  ++ optEntry "projected" (proj.map PyVal.int)
  ++ optEntry "red" (red.map intPair)
  ++ optEntry "amber" (amber.map intPair)
  ++ optEntry "green" (green.map intPair)

theorem mapM_asNum_int (ns : List ℤ) :
    (ns.map PyVal.int).mapM asNum = some (ns.map PyNum.i) := by
  induction ns with
  | nil => rfl
  | cons n rest ih =>
      rw [List.map_cons, List.mapM_cons, ih]
      rfl

theorem foldlMax_int (n : ℤ) (rest : List ℤ) :
    (rest.map PyNum.i).foldl (fun a b => if a.toRat < b.toRat then b else a) (PyNum.i n) =
      PyNum.i (rest.foldl max n) := by
  induction rest generalizing n with
  | nil => rfl
  | cons x xs ih =>
      simp only [List.map_cons, List.foldl_cons]
      have hstep : (if (PyNum.i n).toRat < (PyNum.i x).toRat then PyNum.i x else PyNum.i n) =
          PyNum.i (max n x) := by
        simp only [PyNum.toRat, Int.cast_lt]
        by_cases h : n < x
        · rw [if_pos h, max_eq_right h.le]
        · rw [if_neg h, max_eq_left (not_lt.mp h)]
      rw [hstep, ih]

theorem foldlMin_int (n : ℤ) (rest : List ℤ) :
    (rest.map PyNum.i).foldl (fun a b => if b.toRat < a.toRat then b else a) (PyNum.i n) =
      PyNum.i (rest.foldl min n) := by
  induction rest generalizing n with
  | nil => rfl
  | cons x xs ih =>
      simp only [List.map_cons, List.foldl_cons]
      have hstep : (if (PyNum.i x).toRat < (PyNum.i n).toRat then PyNum.i x else PyNum.i n) =
          PyNum.i (min n x) := by
        simp only [PyNum.toRat, Int.cast_lt]
        by_cases h : x < n
        · rw [if_pos h, min_eq_right h.le]
        · rw [if_neg h, min_eq_left (not_lt.mp h)]
      rw [hstep, ih]

theorem dget_dset_ne (d : PyDict) (k k' : String) (v : PyVal) (h : k ≠ k') :
    dget (dset d k v) k' = dget d k' := by
  have hbeq : (k == k') = false := by simp [h]
  induction d with
  | nil => simp [dset, dget, List.find?, hbeq]
  | cons kv rest ih =>
      obtain ⟨k0, v0⟩ := kv
      by_cases h0 : k0 = k
      · subst h0
        simp only [dset, beq_self_eq_true, if_true, dget, List.find?]
        have : (k0 == k') = false := by simp [h]
        simp [this]
      · have : (k0 == k) = false := by simp [h0]
        simp only [dset, this, if_false]
        by_cases h1 : k0 = k'
        · subst h1; simp [dget, List.find?]
        · have h1' : (k0 == k') = false := by simp [h1]
          simp only [dget, List.find?, h1']
          exact ih

theorem dgetD_dset_ne (d : PyDict) (k k' : String) (v dflt : PyVal) (h : k ≠ k') :
    dgetD (dset d k v) k' dflt = dgetD d k' dflt := by
  unfold dgetD; rw [dget_dset_ne d k k' v h]

/-- C2: for every value, XML rendering produces the declaration
`<?xml version="1.0" ?>` and a single root element named `root`, and the
node emission follows the specification's rule: a mapping emits one child
element per key in insertion order with sequence-valued keys repeating the
key's tag once per element, a scalar emits its string form as a text node,
and a sequence not under a mapping key emits its elements in place with no
wrapping element (`buildXml` is the source's emission, `specXmlNodes` the
specification's wording; the closing conjunct is the specification's own
repeated-sibling-tag example). -/
theorem xml_rendering_matches_spec :
    (∀ v : PyVal, buildXml v = specXmlNodes v) ∧
    (∀ v : PyVal, renderXmlDoc v =
      "<?xml version=\"1.0\" ?>" ++ Xml.render (.elem "root" (specXmlNodes v))) ∧
    renderXmlDoc (.dict [("item", .list [.dict [("value", .int 1)],
        .dict [("value", .int 2)]])]) =
      "<?xml version=\"1.0\" ?><root><item><value>1</value></item><item><value>2</value></item></root>" :=
  ⟨buildXml_eq_spec,
   fun v => by rw [renderXmlDoc, xmlDeclaration, buildXml_eq_spec v],
   by rfl⟩

/-- The format mapping exactly as claim C3 words it: absent or empty
selects XML; `"1"` or the textual value `"xml"` selects XML; `"2"` or the
textual value `"json"` selects JSON; every other value selects XML. -/
def claimedFormatOf (format : String) : RenderFormat :=
  if format = "" then .xml
  else if format = "1" ∨ format = "xml" then .xml
  else if format = "2" ∨ format = "json" then .json
  else .xml

/-- C3 counterexample: the textual selector `"json"` does *not* select
JSON — `_render` only compares against `"2"`, so `"json"` falls through to
XML, contradicting the claimed mapping at this input. -/
theorem format_selector_textual_json_counterexample :
    chooseFormat "json" = RenderFormat.xml ∧
    claimedFormatOf "json" = RenderFormat.json ∧
    RenderFormat.xml ≠ RenderFormat.json := by
  refine ⟨by decide, by decide, by decide⟩

/-- C3 as amended: the selected format is JSON exactly when the resolved
`format` parameter is the string `"2"`; every other value — including the
empty string, `"1"`, `"xml"` and `"json"` — selects XML. -/
theorem format_selector_only_2_selects_json :
    (∀ s : String, chooseFormat s = RenderFormat.json ↔ s = "2") ∧
    (∀ s : String, s ≠ "2" → chooseFormat s = RenderFormat.xml) ∧
    (∀ (post get : Option String) (data : PyVal),
       resolveFormatParam post get ≠ "2" →
       renderBody post get data = renderXmlDoc data) := by
  refine ⟨fun s => ?_, fun s h => ?_, fun post get data h => ?_⟩
  · unfold chooseFormat
    by_cases h : s = "2" <;> simp [h]
  · unfold chooseFormat
    rw [if_neg h]
  · unfold renderBody chooseFormat
    rw [if_neg h]

/-- Witness for the amended C3 theorem at the selector `"json"`. -/
theorem format_selector_only_2_selects_json_witness :
    ("json" : String) ≠ "2" ∧ chooseFormat "json" = RenderFormat.xml :=
  ⟨by decide, format_selector_only_2_selects_json.2.1 "json" (by decide)⟩

/-- C7: when the `sort` key is truthy, the output items are the input items
sorted descending by tuple comparison (value, then label) over the entire
input; when `sort` is absent or falsy, input order is preserved; in both
cases each pair becomes a value/label mapping and the output carries the
defaulted `type` and `percentage`. -/
theorem funnel_sort_descending (inp : FunnelInput) :
    (inp.sort.getD false = true →
       (funnelConvert inp).1.item =
         (sortDesc (inp.items.getD [])).map (fun p => { value := p.1, label := p.2 }) ∧
       List.Sorted itemGe (sortDesc (inp.items.getD [])) ∧
       (sortDesc (inp.items.getD [])).Perm (inp.items.getD [])) ∧
    (inp.sort.getD false = false →
       (funnelConvert inp).1.item =
         (inp.items.getD []).map (fun p => { value := p.1, label := p.2 })) ∧
    (funnelConvert inp).1.ftype = inp.ftype.getD "standard" ∧
    (funnelConvert inp).1.percentage = inp.percentage.getD "show" := by
  refine ⟨fun h => ⟨?_, ?_, ?_⟩, fun h => ?_, rfl, rfl⟩
  · simp [funnelConvert, h]
  · exact List.sorted_insertionSort itemGe _
  · exact List.perm_insertionSort itemGe _
  · simp [funnelConvert, h]

/-- Witness for C7 at a concrete three-element input with a truthy `sort`. -/
theorem funnel_sort_descending_witness :
    (funnelConvert ⟨some [(1, "a"), (3, "c"), (2, "b")], Option.none, Option.none,
        some true⟩).1.item =
      [⟨3, "c"⟩, ⟨2, "b"⟩, ⟨1, "a"⟩] :=
  ((funnel_sort_descending _).1 (by decide)).1.trans (by decide)

/-- C9: a funnel input mapping without the `items` key converts without
raising — `result.get('items', [])` substitutes an empty list — producing
an empty `item` sequence and the defaulted `type` and `percentage`
(`"standard"`/`"show"` when those keys are absent too); the input is left
unchanged.  (The conversion is a total function in this embedding, so
"does not raise" is expressed by it returning this value.) -/
theorem funnel_missing_items_graceful (inp : FunnelInput) (h : inp.items = Option.none) :
    (funnelConvert inp).1.item = [] ∧
    (funnelConvert inp).1.ftype = inp.ftype.getD "standard" ∧
    (funnelConvert inp).1.percentage = inp.percentage.getD "show" ∧
    (funnelConvert inp).2 = inp := by
  obtain ⟨items, ftype, percentage, sort⟩ := inp
  simp only at h
  subst h
  refine ⟨?_, rfl, rfl, ?_⟩
  · simp [funnelConvert, sortDesc]
  · simp [funnelConvert]

/-- Witness for C9: `items` absent while `type`, `percentage` and a truthy
`sort` are supplied. -/
theorem funnel_missing_items_graceful_witness :
    (funnelConvert ⟨Option.none, some "reverse", some "hide", some true⟩).1.item = [] ∧
    (funnelConvert ⟨Option.none, some "reverse", some "hide", some true⟩).1.ftype =
      "reverse" ∧
    (funnelConvert ⟨Option.none, some "reverse", some "hide", some true⟩).1.percentage =
      "hide" :=
  ⟨(funnel_missing_items_graceful _ rfl).1,
   (funnel_missing_items_graceful _ rfl).2.1,
   (funnel_missing_items_graceful _ rfl).2.2.1⟩

/-- C8: a 3-element RAG input converts to exactly 3 items in input order;
an element whose value is `None` is emitted with the empty string as its
value, never dropped; the `text` field is present exactly when the element
supplies a second component. -/
theorem rag_none_rendered_as_empty_string (e1 e2 e3 : PyVal)
    (h1 : seqItems e1 ≠ []) (h2 : seqItems e2 ≠ []) (h3 : seqItems e3 ≠ []) :
    ragValueOf PyVal.none = PyVal.str "" ∧
    (∀ w, w ≠ PyVal.none → ragValueOf w = w) ∧
    ∃ i1 i2 i3, ragConvert [e1, e2, e3] = some [i1, i2, i3] ∧
      (∀ v vs, seqItems e1 = v :: vs →
         i1.value = ragValueOf v ∧ (i1.text.isSome ↔ vs ≠ [])) ∧
      (∀ v vs, seqItems e2 = v :: vs →
         i2.value = ragValueOf v ∧ (i2.text.isSome ↔ vs ≠ [])) ∧
      (∀ v vs, seqItems e3 = v :: vs →
         i3.value = ragValueOf v ∧ (i3.text.isSome ↔ vs ≠ [])) := by
  obtain ⟨v1, vs1, hs1⟩ := List.exists_cons_of_ne_nil h1
  obtain ⟨v2, vs2, hs2⟩ := List.exists_cons_of_ne_nil h2
  obtain ⟨v3, vs3, hs3⟩ := List.exists_cons_of_ne_nil h3
  have c1 : ragItemOf e1 = some ⟨ragValueOf v1, vs1.head?⟩ := by rw [ragItemOf, hs1]
  have c2 : ragItemOf e2 = some ⟨ragValueOf v2, vs2.head?⟩ := by rw [ragItemOf, hs2]
  have c3 : ragItemOf e3 = some ⟨ragValueOf v3, vs3.head?⟩ := by rw [ragItemOf, hs3]
  refine ⟨rfl, fun w hw => ?_, ⟨ragValueOf v1, vs1.head?⟩, ⟨ragValueOf v2, vs2.head?⟩,
          ⟨ragValueOf v3, vs3.head?⟩, ?_, fun v vs hs => ?_, fun v vs hs => ?_,
          fun v vs hs => ?_⟩
  · cases w <;> first | exact absurd rfl hw | rfl
  · rw [ragConvert, List.mapM_cons, c1, List.mapM_cons, c2, List.mapM_cons, c3,
      List.mapM_nil]
    rfl
  · rw [hs1] at hs
    injection hs with hv hvs
    subst hv
    subst hvs
    exact ⟨rfl, by cases vs1 <;> simp⟩
  · rw [hs2] at hs
    injection hs with hv hvs
    subst hv
    subst hvs
    exact ⟨rfl, by cases vs2 <;> simp⟩
  · rw [hs3] at hs
    injection hs with hv hvs
    subst hv
    subst hvs
    exact ⟨rfl, by cases vs3 <;> simp⟩

/-- C10: the gauge conversion inserts its output keys in the order `item`,
`max`, `min`, so the XML children of the root appear as an `item` element,
then a `max` element, then a `min` element; `max` and `min` each map
`value` to the first widened component and carry `text` exactly when a
second component is supplied (the `text` entry is present exactly when the
widened rest is nonempty). -/
theorem gauge_item_max_min_order (value mn mx : PyVal) (mv nv : PyVal)
    (mrest nrest : List PyVal)
    (hmx : seqItems mx = mv :: mrest) (hmn : seqItems mn = nv :: nrest)
    (hval : isSeq value = false) :
    gaugeConvert value mn mx = some (.dict
      [("item", value),
       ("max", .dict (("value", mv) :: ((mrest.head?).map (fun t => ("text", t))).toList)),
       ("min", .dict (("value", nv) :: ((nrest.head?).map (fun t => ("text", t))).toList))]) ∧
    (∃ c1 c2 c3, buildXml (.dict
      [("item", value),
       ("max", .dict (("value", mv) :: ((mrest.head?).map (fun t => ("text", t))).toList)),
       ("min", .dict (("value", nv) :: ((nrest.head?).map (fun t => ("text", t))).toList))]) =
      [.elem "item" c1, .elem "max" c2, .elem "min" c3]) := by
  constructor
  · rw [gaugeConvert]
    simp only [hmx, hmn, List.head?_cons, Option.some_bind, List.get?_cons_succ,
      List.get?_zero]
    rfl
  · cases value with
    | list xs => simp [isSeq] at hval
    | tuple xs => simp [isSeq] at hval
    | none => exact ⟨_, _, _, rfl⟩
    | bool b => exact ⟨_, _, _, rfl⟩
    | int n => exact ⟨_, _, _, rfl⟩
    | float q => exact ⟨_, _, _, rfl⟩
    | str s => exact ⟨_, _, _, rfl⟩
    | dict kvs => exact ⟨_, _, _, rfl⟩

/-- Witness for C10: gauge input `(5, 1, (10, "high"))` — `max` supplies a
second component and gets `text`, `min` does not. -/
theorem gauge_item_max_min_order_witness :
    gaugeConvert (.int 5) (.int 1) (.tuple [.int 10, .str "high"]) = some (.dict
      [("item", .int 5),
       ("max", .dict [("value", .int 10), ("text", .str "high")]),
       ("min", .dict [("value", .int 1)])]) :=
  (gauge_item_max_min_order (.int 5) (.int 1) (.tuple [.int 10, .str "high"])
    (.int 10) (.int 1) [.str "high"] [] rfl rfl rfl).1

/-- Helper: a `required` error can only come out of the explicit
required-key check at the top of the bullet conversion, never from the
later stages. -/
theorem bulletChecked_never_required (d : PyDict) (k : String) :
    bulletConvert d = .error (.required k) → firstMissingKey d = some k := by
  intro hk
  rw [bulletConvert] at hk
  cases h : firstMissingKey d with
  | some k0 =>
      rw [h] at hk
      injection hk with h'
      injection h' with h''
      rw [h'']
  | none =>
      rw [h] at hk
      cases hc : bulletChecked d with
      | some r => rw [hc] at hk; exact Except.noConfusion hk
      | none =>
          rw [hc] at hk
          injection hk with h'
          exact BulletError.noConfusion h'

/-- C5 as amended: the bullet conversion raises the descriptive
`RuntimeError, "Key %s is required"` — modelled as `BulletError.required`
naming the missing key — if and only if one of `label`, `axis_points`,
`current`, `comparitive` (the source's spelling) is absent from the input
mapping; the raised key is indeed absent and is one of those four; when all
four are present, no required-field error is raised (later stages can only
raise the unnamed type errors of `BulletError.typeError`). -/
theorem bullet_required_key_check (d : PyDict) :
    ((∃ k, bulletConvert d = .error (.required k)) ↔
      ¬(hasKey d "label" = true ∧ hasKey d "axis_points" = true ∧
        hasKey d "current" = true ∧ hasKey d "comparitive" = true)) ∧
    (∀ k, bulletConvert d = .error (.required k) →
      hasKey d k = false ∧ k ∈ requiredBulletKeys) := by
  cases h : firstMissingKey d with
  | none =>
      have hall : ∀ k ∈ requiredBulletKeys, hasKey d k = true := by
        intro k hk
        have hnp := List.find?_eq_none.mp h k hk
        simpa using hnp
      have hnoterr : ∀ k, ¬(bulletConvert d = .error (.required k)) := by
        intro k hk
        have := bulletChecked_never_required d k hk
        rw [h] at this
        exact Option.noConfusion this
      refine ⟨⟨fun ⟨k, hk⟩ => absurd hk (hnoterr k), fun hcon => absurd ?_ hcon⟩,
        fun k hk => absurd hk (hnoterr k)⟩
      exact ⟨hall _ (by decide), hall _ (by decide), hall _ (by decide), hall _ (by decide)⟩
  | some k0 =>
      have hp := List.find?_some h
      have hmem := List.mem_of_find?_eq_some h
      have hkey : hasKey d k0 = false := by simpa using hp
      have herr : bulletConvert d = .error (.required k0) := by rw [bulletConvert, h]
      refine ⟨⟨fun _ => ?_, fun _ => ⟨k0, herr⟩⟩, fun k hk => ?_⟩
      · intro hcon
        obtain ⟨hl, ha, hc, hcm⟩ := hcon
        have : k0 = "label" ∨ k0 = "axis_points" ∨ k0 = "current" ∨ k0 = "comparitive" := by
          simpa [requiredBulletKeys] using hmem
        rcases this with rfl | rfl | rfl | rfl
        · rw [hl] at hkey; exact Bool.noConfusion hkey
        · rw [ha] at hkey; exact Bool.noConfusion hkey
        · rw [hc] at hkey; exact Bool.noConfusion hkey
        · rw [hcm] at hkey; exact Bool.noConfusion hkey
      · rw [herr] at hk
        injection hk with h'
        injection h' with h''
        rw [← h'']
        exact ⟨hkey, hmem⟩

/-- A bullet input that spells the comparative-value key as the
specification does (`comparative`), while the source requires the spelling
`comparitive`. -/
def bulletMisspelledDict : PyDict :=
  [("label", .str "Revenue"), ("axis_points", .list [.int 0, .int 1000]),
   ("current", .int 500), ("comparative", .int 600)]

/-- C5 counterexample: a mapping containing all four keys the claim lists —
`label`, `axis_points`, `current`, `comparative` — still raises a
required-field error, because the source checks for the key spelled
`comparitive`. -/
theorem bullet_required_key_spelling_counterexample :
    hasKey bulletMisspelledDict "label" = true ∧
    hasKey bulletMisspelledDict "axis_points" = true ∧
    hasKey bulletMisspelledDict "current" = true ∧
    hasKey bulletMisspelledDict "comparative" = true ∧
    bulletConvert bulletMisspelledDict = .error (.required "comparitive") :=
  ⟨rfl, rfl, rfl, rfl, rfl⟩

/-- Witness for the amended C5 theorem: the key the error names is indeed
absent from the input and is one of the four required keys. -/
theorem bullet_required_key_check_witness :
    hasKey bulletMisspelledDict "comparitive" = false ∧
    "comparitive" ∈ requiredBulletKeys :=
  (bullet_required_key_check bulletMisspelledDict).2 "comparitive" rfl

/-- The specification's bullet example input: `axis_points`
`[0, 200, 400, 600, 800, 1000]`, `current=500`, comparative value `600`,
`auto_scale=false`, with red/amber/green left to be defaulted. -/
def bulletExampleDict : PyDict :=
  mkBulletDict "Revenue" [0, 200, 400, 600, 800, 1000] 500 600
    Option.none (some false) Option.none Option.none Option.none Option.none

/-- C1: when red, amber and green are not all supplied (`None`/absent is
what `result.get` hands the range-defaulting step), all three ranges are
computed from `lo = min(axis_points)`, `hi = max(axis_points)` and
`third = (hi - lo) / 3` — integer division on integer inputs — as
`red=(lo, lo+third-1)`, `amber=(lo+third, hi-third-1)`,
`green=(hi-third, hi)`; an empty `axis_points` yields `(0, 0)` for all
three; and the specification's example input (with `auto_scale` false)
converts end to end to `red=(0,332)`, `amber=(333,666)`,
`green=(667,1000)`, `current=(0,500)`. -/
theorem bullet_default_ranges_from_axis_points :
    (∀ (n : ℤ) (rest : List ℤ) (red amber green : PyVal),
       (isPyNone red || isPyNone amber || isPyNone green) = true →
       bulletRanges (.list ((n :: rest).map PyVal.int)) red amber green =
         (let lo : ℤ := rest.foldl min n
          let hi : ℤ := rest.foldl max n
          let third : ℤ := (hi - lo) / 3
          some (.tuple [.int lo, .int (lo + third - 1)],
                .tuple [.int (lo + third), .int (hi - third - 1)],
                .tuple [.int (hi - third), .int hi]))) ∧
    (∀ red amber green : PyVal,
       (isPyNone red || isPyNone amber || isPyNone green) = true →
       bulletRanges (.list []) red amber green =
         some (.tuple [.int 0, .int 0], .tuple [.int 0, .int 0],
               .tuple [.int 0, .int 0])) ∧
    bulletOutputOf bulletExampleDict =
      some { orientation := .str "horizontal", label := .str "Revenue",
             sublabel := Option.none,
             axisPoints := .list [.int 0, .int 200, .int 400, .int 600,
               .int 800, .int 1000],
             red := (.int 0, .int 332), amber := (.int 333, .int 666),
             green := (.int 667, .int 1000), current := (.int 0, .int 500),
             projected := Option.none, comparitive := .int 600 } := by
  refine ⟨fun n rest red amber green h => ?_, fun red amber green h => ?_, by rfl⟩
  · have htr : pyTruthy (PyVal.list ((n :: rest).map PyVal.int)) = true := by
      simp [pyTruthy]
    have hnums : asNumList (PyVal.list ((n :: rest).map PyVal.int)) =
        some ((n :: rest).map PyNum.i) := by
      simp only [asNumList]
      exact mapM_asNum_int (n :: rest)
    have hmax : pyMaxNum ((n :: rest).map PyNum.i) =
        some (PyNum.i (rest.foldl max n)) := by
      simp only [List.map_cons, pyMaxNum, foldlMax_int]
    have hmin : pyMinNum ((n :: rest).map PyNum.i) =
        some (PyNum.i (rest.foldl min n)) := by
      simp only [List.map_cons, pyMinNum, foldlMin_int]
    have hdiv : (rest.foldl max n - rest.foldl min n).fdiv 3 =
        (rest.foldl max n - rest.foldl min n) / 3 :=
      Int.fdiv_eq_ediv _ (by norm_num)
    simp only [bulletRanges, h, htr, if_true, hnums, Option.bind_eq_bind',
      Option.some_bind, hmax, hmin, PyNum.sub, PyNum.add, PyNum.pydiv, PyNum.toVal,
      hdiv]
  · simp only [bulletRanges, h, if_true]
    rfl

/-- Witness for C1 at `axis_points = [0, 300]` with all of red, amber,
green absent: `third = 100`, `red=(0,99)`, `amber=(100,199)`,
`green=(200,300)`. -/
theorem bullet_default_ranges_from_axis_points_witness :
    bulletRanges (.list [.int 0, .int 300]) .none .none .none =
      some (.tuple [.int 0, .int 99], .tuple [.int 100, .int 199],
            .tuple [.int 200, .int 300]) :=
  (bullet_default_ranges_from_axis_points.1 0 [300] .none .none .none (by decide)).trans
    (by decide)

theorem scaleOf_spec (m : ℚ) :
    (m < 1000 → scaleOf m = 1) ∧
    (1000 ≤ m →
      (scaleOf m = 1000 ∨ scaleOf m = 1000000 ∨ scaleOf m = 1000000000) ∧
      (scaleOf m : ℚ) ≤ m ∧
      ∀ s : ℤ, (s = 1000 ∨ s = 1000000 ∨ s = 1000000000) → (s : ℚ) ≤ m →
        s ≤ scaleOf m) := by
  unfold scaleOf
  split_ifs with h1 h2 h3
  · constructor
    · intro hm; exfalso; linarith
    · intro _
      refine ⟨Or.inr (Or.inr rfl), by push_cast; linarith, fun s hs _ => ?_⟩
      rcases hs with rfl | rfl | rfl <;> norm_num
  · constructor
    · intro hm; exfalso; linarith
    · intro _
      refine ⟨Or.inr (Or.inl rfl), by push_cast; linarith, fun s hs hsm => ?_⟩
      rcases hs with rfl | rfl | rfl
      · norm_num
      · norm_num
      · exfalso; push_cast at hsm; linarith
  · constructor
    · intro hm; exfalso; linarith
    · intro _
      refine ⟨Or.inl rfl, by push_cast; linarith, fun s hs hsm => ?_⟩
      rcases hs with rfl | rfl | rfl
      · norm_num
      · exfalso; push_cast at hsm; linarith
      · exfalso; push_cast at hsm; linarith
  · constructor
    · intro _; rfl
    · intro hm; exfalso; push_cast at h3; linarith

theorem bulletAutoScale_auto_falsy (d : PyDict) (v : BulletVals)
    (h : pyTruthy (dgetD d "auto_scale" (.bool true)) = false) :
    bulletAutoScale d v = some (v, d) := by
  rw [bulletAutoScale]
  simp only [h, Bool.false_and, Bool.false_eq_true, if_false]

theorem bulletAutoScale_scale_one (d : PyDict) (v : BulletVals)
    (nums : List PyNum) (vm : PyNum)
    (hnums : asNumList v.axisPoints = some nums)
    (hvm : pyMaxNum nums = some vm)
    (hs : scaleOf vm.toRat = 1) :
    bulletAutoScale d v = some (v, d) := by
  rw [bulletAutoScale]
  by_cases hc : (pyTruthy (dgetD d "auto_scale" (.bool true)) && pyTruthy v.axisPoints) = true
  · simp only [hc, if_true, hnums, Option.bind_eq_bind', Option.some_bind, hvm, hs]
    norm_num
  · rw [Bool.not_eq_true] at hc
    simp only [hc, Bool.false_eq_true, if_false]

theorem bulletAutoScale_scaled (d : PyDict) (v : BulletVals)
    (nums : List PyNum) (vm : PyNum) (cur red amber green : PyVal)
    (projOut : Option PyVal) (compV : PyVal) (comp : PyNum)
    (hauto : pyTruthy (dgetD d "auto_scale" (.bool true)) = true)
    (haxis : pyTruthy v.axisPoints = true)
    (hnums : asNumList v.axisPoints = some nums)
    (hvm : pyMaxNum nums = some vm)
    (hscale : 1 < scaleOf vm.toRat)
    (hcur : scalePair v.current (scaleOf vm.toRat) = some cur)
    (hproj : (match v.projected with
              | Option.none => some Option.none
              | some p => (scalePair p (scaleOf vm.toRat)).map some) = some projOut)
    (hred : scalePair v.red (scaleOf vm.toRat) = some red)
    (hamber : scalePair v.amber (scaleOf vm.toRat) = some amber)
    (hgreen : scalePair v.green (scaleOf vm.toRat) = some green)
    (hcompV : dget d "comparitive" = some compV)
    (hcomp : asNum compV = some comp) :
    bulletAutoScale d v = some
      ({ axisPoints := .list (nums.map (fun n => scaler n (scaleOf vm.toRat))),
         current := cur, projected := projOut,
         red := red, amber := amber, green := green },
       dset (dset d "comparitive" (scaler comp (scaleOf vm.toRat))) "sublabel"
         (if pyTruthy (dgetD d "sublabel" (.str "")) then
            .str (pyStr (dgetD d "sublabel" (.str "")) ++ " (" ++
              scaleLabel (scaleOf vm.toRat) ++ ")")
          else
            .str (scaleLabel (scaleOf vm.toRat)).capitalize)) := by
  have hc : (pyTruthy (dgetD d "auto_scale" (.bool true)) && pyTruthy v.axisPoints)
      = true := by
    rw [hauto, haxis]; rfl
  rw [bulletAutoScale]
  cases hvp : v.projected with
  | none =>
      rw [hvp] at hproj
      injection hproj with hP
      simp only [hc, if_true, hnums, Option.bind_eq_bind', Option.some_bind, hvm,
        if_pos hscale, hcur, hvp, hred, hamber, hgreen, hcompV, hcomp,
        dgetD_dset_ne d "comparitive" "sublabel" _ _ (by decide), ← hP]
  | some p =>
      rw [hvp] at hproj
      have hproj' : (scalePair p (scaleOf vm.toRat)).map some = some projOut := hproj
      simp only [hc, if_true, hnums, Option.bind_eq_bind', Option.some_bind, hvm,
        if_pos hscale, hcur, hvp, hproj', hred, hamber, hgreen, hcompV, hcomp,
        dgetD_dset_ne d "comparitive" "sublabel" _ _ (by decide)]

theorem bulletAutoScale_dict_shape (d : PyDict) (v : BulletVals)
    (r : BulletVals × PyDict) (h : bulletAutoScale d v = some r) :
    r.2 = d ∨ ∃ c s, r.2 = dset (dset d "comparitive" c) "sublabel" s := by
  rw [bulletAutoScale] at h
  split at h
  · simp only [Option.bind_eq_bind', Option.bind_eq_some] at h
    obtain ⟨nums, hnums, vm, hvm, h⟩ := h
    split at h
    · simp only [Option.bind_eq_some] at h
      obtain ⟨cur, hcur, h⟩ := h
      cases hvp : v.projected with
      | none =>
          rw [hvp] at h
          simp only [Option.bind_eq_some, Option.some_bind] at h
          obtain ⟨red, hred, amber, hamber, green, hgreen, compV, hcompV,
            comp, hcomp, h⟩ := h
          injection h with h'
          exact Or.inr ⟨_, _, congrArg Prod.snd h'.symm⟩
      | some p =>
          rw [hvp] at h
          simp only [Option.bind_eq_some, Option.map_eq_some'] at h
          obtain ⟨projOut, ⟨pp, hpp, hpo⟩, red, hred, amber, hamber, green, hgreen,
            compV, hcompV, comp, hcomp, h⟩ := h
          injection h with h'
          exact Or.inr ⟨_, _, congrArg Prod.snd h'.symm⟩
    · injection h with h'
      exact Or.inl (congrArg Prod.snd h'.symm)
  · injection h with h'
    exact Or.inl (congrArg Prod.snd h'.symm)

theorem bulletChecked_dict_shape (d : PyDict) (r : BulletOutput × PyDict)
    (h : bulletChecked d = some r) :
    r.2 = d ∨ ∃ c s, r.2 = dset (dset d "comparitive" c) "sublabel" s := by
  rw [bulletChecked] at h
  simp only [Option.bind_eq_bind', Option.bind_eq_some] at h
  obtain ⟨current0, hc0, axisPoints, hap, rag, hrag, vd, hvd, h⟩ := h
  obtain ⟨red, amber, green⟩ := rag
  obtain ⟨vals, dFinal⟩ := vd
  simp only [Option.bind_eq_some] at h
  obtain ⟨label, hlabel, redP, hredP, amberP, hamberP, greenP, hgreenP,
    currentP, hcurrentP, h⟩ := h
  cases hvp : vals.projected with
  | none =>
      rw [hvp] at h
      simp only [Option.bind_eq_some, Option.some_bind] at h
      obtain ⟨comparitive, hcm, h⟩ := h
      injection h with h'
      have hsnd : r.2 = dFinal := (congrArg Prod.snd h').symm
      rw [hsnd]
      exact bulletAutoScale_dict_shape d _ (vals, dFinal) hvd
  | some p =>
      rw [hvp] at h
      simp only [Option.bind_eq_some, Option.map_eq_some'] at h
      obtain ⟨projectedP, ⟨pp, hpp, hpo⟩, comparitive, hcm, h⟩ := h
      injection h with h'
      have hsnd : r.2 = dFinal := (congrArg Prod.snd h').symm
      rw [hsnd]
      exact bulletAutoScale_dict_shape d _ (vals, dFinal) hvd

/-- The specification's auto-scaled bullet example: the same inputs as
`bulletExampleDict` but with `auto_scale` left at its default (true). -/
def bulletScaledExampleDict : PyDict :=
  mkBulletDict "Revenue" [0, 200, 400, 600, 800, 1000] 500 600
    Option.none Option.none Option.none Option.none Option.none Option.none

/-- A scaled bullet input whose `sublabel` key is present but empty. -/
def bulletEmptySublabelDict : PyDict :=
  mkBulletDict "Revenue" [0, 200, 400, 600, 800, 1000] 500 600
    (some "") Option.none Option.none Option.none Option.none Option.none

/-- C6 as amended: the chosen scale is the largest element of
`(1000000000, 1000000, 1000)` that is at most `max(axis_points)` and no
scaling occurs below 1000; when a scale greater than 1 is chosen, every
numeric field — `axis_points` elements, `current` bounds, `projected`
bounds, `red`/`amber`/`green` bounds, and the dict's `comparitive` entry —
is passed through `scaler` (division by the scale, rounded to 2 decimal
places), and `sublabel` is suffixed with the scale label in parentheses
when it is present and truthy (non-empty), or created capitalized when it
is absent *or falsy* (the source tests `if sublabel:`, not key presence);
the specification's example scales by 1000 with `red.end = 0.33` and the
created sublabel `Thousands`. -/
theorem bullet_auto_scale_behaviour :
    (∀ m : ℚ, (m < 1000 → scaleOf m = 1) ∧
       (1000 ≤ m →
         (scaleOf m = 1000 ∨ scaleOf m = 1000000 ∨ scaleOf m = 1000000000) ∧
         (scaleOf m : ℚ) ≤ m ∧
         ∀ s : ℤ, (s = 1000 ∨ s = 1000000 ∨ s = 1000000000) → (s : ℚ) ≤ m →
           s ≤ scaleOf m)) ∧
    (∀ (d : PyDict) (v : BulletVals) (nums : List PyNum) (vm : PyNum),
       asNumList v.axisPoints = some nums → pyMaxNum nums = some vm →
       scaleOf vm.toRat = 1 → bulletAutoScale d v = some (v, d)) ∧
    (∀ (d : PyDict) (v : BulletVals) (nums : List PyNum) (vm : PyNum)
       (cur red amber green : PyVal) (projOut : Option PyVal)
       (compV : PyVal) (comp : PyNum),
       pyTruthy (dgetD d "auto_scale" (.bool true)) = true →
       pyTruthy v.axisPoints = true →
       asNumList v.axisPoints = some nums →
       pyMaxNum nums = some vm →
       1 < scaleOf vm.toRat →
       scalePair v.current (scaleOf vm.toRat) = some cur →
       (match v.projected with
        | Option.none => some Option.none
        | some p => (scalePair p (scaleOf vm.toRat)).map some) = some projOut →
       scalePair v.red (scaleOf vm.toRat) = some red →
       scalePair v.amber (scaleOf vm.toRat) = some amber →
       scalePair v.green (scaleOf vm.toRat) = some green →
       dget d "comparitive" = some compV →
       asNum compV = some comp →
       bulletAutoScale d v = some
         ({ axisPoints := .list (nums.map (fun n => scaler n (scaleOf vm.toRat))),
            current := cur, projected := projOut,
            red := red, amber := amber, green := green },
          dset (dset d "comparitive" (scaler comp (scaleOf vm.toRat))) "sublabel"
            (if pyTruthy (dgetD d "sublabel" (.str "")) then
               .str (pyStr (dgetD d "sublabel" (.str "")) ++ " (" ++
                 scaleLabel (scaleOf vm.toRat) ++ ")")
             else
               .str (scaleLabel (scaleOf vm.toRat)).capitalize))) ∧
    bulletOutputOf bulletScaledExampleDict =
      some { orientation := .str "horizontal", label := .str "Revenue",
             sublabel := some (.str "Thousands"),
             axisPoints := .list [.float 0, .float 0.2, .float 0.4, .float 0.6,
               .float 0.8, .float 1],
             red := (.float 0, .float 0.33), amber := (.float 0.33, .float 0.67),
             green := (.float 0.67, .float 1), current := (.float 0, .float 0.5),
             projected := Option.none, comparitive := .float 0.6 } :=
  by
  refine ⟨scaleOf_spec, bulletAutoScale_scale_one, bulletAutoScale_scaled, ?_⟩
  have hform : bulletOutputOf bulletScaledExampleDict = some
      { orientation := .str "horizontal", label := .str "Revenue",
        sublabel := some (.str "Thousands"),
        axisPoints := .list [scaler (.i 0) 1000, scaler (.i 200) 1000,
          scaler (.i 400) 1000, scaler (.i 600) 1000, scaler (.i 800) 1000,
          scaler (.i 1000) 1000],
        red := (scaler (.i 0) 1000, scaler (.i 332) 1000),
        amber := (scaler (.i 333) 1000, scaler (.i 666) 1000),
        green := (scaler (.i 667) 1000, scaler (.i 1000) 1000),
        current := (scaler (.i 0) 1000, scaler (.i 500) 1000),
        projected := Option.none, comparitive := scaler (.i 600) 1000 } := by rfl
  have e0 : scaler (PyNum.i 0) 1000 = PyVal.float 0 := by
    rw [scaler, roundTo2]; norm_num [PyNum.toRat, PyVal.float.injEq]
  have e200 : scaler (PyNum.i 200) 1000 = PyVal.float 0.2 := by
    rw [scaler, roundTo2]; norm_num [PyNum.toRat, PyVal.float.injEq]
  have e400 : scaler (PyNum.i 400) 1000 = PyVal.float 0.4 := by
    rw [scaler, roundTo2]; norm_num [PyNum.toRat, PyVal.float.injEq]
  have e500 : scaler (PyNum.i 500) 1000 = PyVal.float 0.5 := by
    rw [scaler, roundTo2]; norm_num [PyNum.toRat, PyVal.float.injEq]
  have e600 : scaler (PyNum.i 600) 1000 = PyVal.float 0.6 := by
    rw [scaler, roundTo2]; norm_num [PyNum.toRat, PyVal.float.injEq]
  have e800 : scaler (PyNum.i 800) 1000 = PyVal.float 0.8 := by
    rw [scaler, roundTo2]; norm_num [PyNum.toRat, PyVal.float.injEq]
  have e1000 : scaler (PyNum.i 1000) 1000 = PyVal.float 1 := by
    rw [scaler, roundTo2]; norm_num [PyNum.toRat, PyVal.float.injEq]
  have e332 : scaler (PyNum.i 332) 1000 = PyVal.float 0.33 := by
    rw [scaler, roundTo2]; norm_num [PyNum.toRat, PyVal.float.injEq]
  have e333 : scaler (PyNum.i 333) 1000 = PyVal.float 0.33 := by
    rw [scaler, roundTo2]; norm_num [PyNum.toRat, PyVal.float.injEq]
  have e666 : scaler (PyNum.i 666) 1000 = PyVal.float 0.67 := by
    rw [scaler, roundTo2]; norm_num [PyNum.toRat, PyVal.float.injEq]
  have e667 : scaler (PyNum.i 667) 1000 = PyVal.float 0.67 := by
    rw [scaler, roundTo2]; norm_num [PyNum.toRat, PyVal.float.injEq]
  rw [hform, e0, e200, e400, e500, e600, e800, e1000, e332, e333, e666, e667]

/-- Witness for the amended C6 theorem: a maximal axis point of 5 keeps the
scale at 1 and auto-scaling leaves values and dict untouched. -/
theorem bullet_auto_scale_behaviour_witness :
    bulletAutoScale []
        { axisPoints := .list [.int 5], current := .int 0,
          projected := Option.none, red := .none, amber := .none, green := .none } =
      some ({ axisPoints := .list [.int 5], current := .int 0,
              projected := Option.none, red := .none, amber := .none,
              green := .none }, []) :=
  bullet_auto_scale_behaviour.2.1 [] _ [PyNum.i 5] (PyNum.i 5) rfl rfl rfl

/-- C6 counterexample: when `sublabel` is present but empty, the claim's
"suffixed in parentheses when present" would give `" (thousands)"`, but the
source's truthiness test takes the capitalize branch and produces
`"Thousands"`. -/
theorem bullet_empty_sublabel_counterexample :
    hasKey bulletEmptySublabelDict "sublabel" = true ∧
    (bulletOutputOf bulletEmptySublabelDict).map (fun o => o.sublabel) =
      some (some (.str "Thousands")) ∧
    "Thousands" ≠ " (thousands)" :=
  ⟨rfl, rfl, by decide⟩

/-- The funnel input `{items: [(1, "a"), (2, "b")], sort: true}` whose
items list the conversion sorts in place. -/
def funnelMutationInput : FunnelInput :=
  ⟨some [(1, "a"), (2, "b")], Option.none, Option.none, some true⟩

/-- C4 counterexample: conversion is not free of side effects on its input —
the funnel conversion with a truthy `sort` leaves the caller's `items` list
rearranged (sorted descending) rather than unchanged. -/
theorem funnel_sort_mutates_input_counterexample :
    (funnelConvert funnelMutationInput).2 ≠ funnelMutationInput ∧
    (funnelConvert funnelMutationInput).2.items = some [(2, "b"), (1, "a")] := by
  constructor
  · decide
  · decide

/-- C4 as amended: conversions do not touch their inputs *except* for the
two in-place writes in the source: the funnel conversion sorts the caller's
`items` list in place when `sort` is truthy (with a falsy `sort` the input
is returned unchanged), and the bullet conversion overwrites the input
mapping's `comparitive` and `sublabel` entries when auto-scaling selects a
scale above 1 (with a falsy `auto_scale`, or a maximal axis point below
1000, the input dict is unchanged; in every successful conversion the final
dict is either the input or the input with exactly those two keys
overwritten). -/
theorem conversions_pure_except_inplace_mutation :
    (∀ inp : FunnelInput, inp.sort.getD false = false → (funnelConvert inp).2 = inp) ∧
    (∀ (d : PyDict) (v : BulletVals),
       pyTruthy (dgetD d "auto_scale" (.bool true)) = false →
       bulletAutoScale d v = some (v, d)) ∧
    (∀ (d : PyDict) (v : BulletVals) (nums : List PyNum) (vm : PyNum),
       asNumList v.axisPoints = some nums → pyMaxNum nums = some vm →
       scaleOf vm.toRat = 1 → bulletAutoScale d v = some (v, d)) ∧
    (∀ (d : PyDict) (r : BulletOutput × PyDict), bulletChecked d = some r →
       r.2 = d ∨ ∃ c s, r.2 = dset (dset d "comparitive" c) "sublabel" s) := by
  refine ⟨fun inp h => ?_, bulletAutoScale_auto_falsy, bulletAutoScale_scale_one,
    bulletChecked_dict_shape⟩
  obtain ⟨items, ftype, percentage, sort⟩ := inp
  cases items with
  | none => simp_all [funnelConvert]
  | some l => simp_all [funnelConvert]

/-- Witness for the amended C4 theorem: a funnel input with `sort` absent
is returned unchanged. -/
theorem conversions_pure_except_inplace_mutation_witness :
    (funnelConvert ⟨some [(2, "b"), (1, "a")], Option.none, Option.none,
        Option.none⟩).2 =
      ⟨some [(2, "b"), (1, "a")], Option.none, Option.none, Option.none⟩ :=
  conversions_pure_except_inplace_mutation.1 _ rfl

/-- Witness for C8 at the triple `((None, "down"), 5, None)`: three items,
the `None` values rendered as empty strings, `text` only on the first. -/
theorem rag_none_rendered_as_empty_string_witness :
    ∃ i1 i2 i3,
      ragConvert [PyVal.tuple [PyVal.none, PyVal.str "down"], PyVal.int 5, PyVal.none] =
        some [i1, i2, i3] ∧
      i1.value = PyVal.str "" ∧ i1.text.isSome = true ∧
      i2.value = PyVal.int 5 ∧ i2.text.isSome = false ∧
      i3.value = PyVal.str "" ∧ i3.text.isSome = false := by
  obtain ⟨hA, hB, i1, i2, i3, heq, p1, p2, p3⟩ :=
    rag_none_rendered_as_empty_string (.tuple [PyVal.none, .str "down"]) (.int 5)
      PyVal.none (by decide) (by decide) (by decide)
  obtain ⟨hv1, ht1⟩ := p1 PyVal.none [PyVal.str "down"] rfl
  obtain ⟨hv2, ht2⟩ := p2 (PyVal.int 5) [] rfl
  obtain ⟨hv3, ht3⟩ := p3 PyVal.none [] rfl
  refine ⟨i1, i2, i3, heq, ?_, ?_, ?_, ?_, ?_, ?_⟩
  · rw [hv1]; rfl
  · exact ht1.mpr (by decide)
  · rw [hv2]; rfl
  · simpa using ht2
  · rw [hv3]; rfl
  · simpa using ht3
